import Mathlib

/-!
Shallow embedding of the NEAR HTLC contract from
`src/contracts/fusion-plus-htlc` (files `src/lib.rs`, `src/utils.rs`,
`src/types.rs`).  Account ids are modelled as `String`, `u64`/`u128`
integers as `Nat` (the contract only compares and stores them, so no
overflow arithmetic occurs), and the external `env::keccak256` hash is a
parameter `keccak : String → List Nat` (composing `as_bytes` with the
hash; outputs are byte lists).  A NEAR panic aborts the whole call and
reverts every write, so fallible entry points return
`Except HTLCErr (state × result)`: an `.error` result models the panic,
carrying no state — no record stored, no transfer made.
-/

deriving instance DecidableEq for Except

namespace FusionPlusHTLC

/-- HTLC state from `types.rs` (`HTLCState`). -/
inductive HTLCState
  | Active
  | Withdrawn
  | Refunded
  | Expired
deriving DecidableEq, Repr

/-- Escrow record from `types.rs` (`struct HTLC`). -/
structure HTLC where
  sender : String
  receiver : String
  token : String
  amount : Nat
  hashlock : String
  timelock : Nat
  secret : Option String
  state : HTLCState
  created_at : Nat
  order_hash : Option String
deriving DecidableEq, Repr

/-- Creation parameters from `types.rs` (`struct HTLCCreateArgs`). -/
structure HTLCCreateArgs where
  receiver : String
  token : String
  amount : Nat
  hashlock : String
  timelock : Nat
  order_hash : Option String
deriving DecidableEq, Repr

/-- Panic causes, one per `assert!`/`expect` message in `lib.rs`
(`ERR_*` constants of `types.rs` plus the inline messages). -/
inductive HTLCErr
  | htlcNotFound
  | htlcNotActive
  | invalidSecret
  | timelockNotExpired
  | unauthorized
  | invalidHashlock
  | invalidTimelock
  | insufficientDeposit
  | tokenMismatch
  | withdrawalExpired
  | mustAttachDeposit
deriving DecidableEq, Repr

/-- Call environment: the parts of `near_sdk::env` the embedded code reads. -/
structure Env where
  predecessor_account_id : String
  block_timestamp : Nat
  attached_deposit : Nat
deriving DecidableEq, Repr

/-- Outbound transfer requested by withdraw/refund (the `Promise` built at
the end of those methods: beneficiary, amount, and the token contract,
`"near"` meaning a native transfer). -/
structure Transfer where
  receiver_id : String
  amount : Nat
  token : String
deriving DecidableEq, Repr

/-- Rust `char::is_ascii_hexdigit`. -/
def isAsciiHexdigit (c : Char) : Bool :=
  (('0' ≤ c && c ≤ '9') || ('a' ≤ c && c ≤ 'f') || ('A' ≤ c && c ≤ 'F'))

/-- Lower-case hex digit for a nibble, as produced by `hex::encode`. -/
def hexDigit (n : Nat) : Char :=
  if n < 10 then Char.ofNat (48 + n) else Char.ofNat (87 + n)

/-- Rust `hex::encode` on a byte list: two lower-case digits per byte. -/
def hexEncode (bytes : List Nat) : String :=
  ⟨bytes.foldr (fun b acc => hexDigit (b / 16 % 16) :: hexDigit (b % 16) :: acc) []⟩

/-- Rust `str::trim_start_matches("0x")` on the character list: removes
every leading occurrence of the two-character pattern, not just one. -/
def trim0x : List Char → List Char
  | '0' :: 'x' :: rest => trim0x rest
  | l => l

/-- Rust `trim_start_matches("0x")` on strings. -/
def trimHex0x (s : String) : String := ⟨trim0x s.data⟩

/-- Embeds `utils.rs::validate_secret`: keccak-hash the secret, hex-encode, and
compare with the hashlock after removing leading `0x` occurrences. -/
def validate_secret (keccak : String → List Nat) (secret hashlock : String) : Bool :=
  hexEncode (keccak secret) == trimHex0x hashlock

/-- Embeds `utils.rs::validate_hashlock`: after removing leading `0x`
occurrences, exactly 64 ASCII hex characters. -/
def validate_hashlock (hashlock : String) : Bool :=
  let c := trim0x hashlock.data
  c.length == 64 && c.all isAsciiHexdigit

/-- Embeds `utils.rs::current_timestamp_sec`: nanoseconds to seconds. -/
def current_timestamp_sec (block_timestamp : Nat) : Nat :=
  block_timestamp / 1000000000

/-- Embeds `utils.rs::validate_timelock`: strictly in the future in seconds. -/
def validate_timelock (block_timestamp timelock : Nat) : Bool :=
  decide (current_timestamp_sec block_timestamp < timelock)

/-- Embeds `utils.rs::generate_htlc_id`: keccak of `"sender-receiver-timestamp"`,
first 16 bytes, hex-encoded. -/
def generate_htlc_id (keccak : String → List Nat)
    (sender receiver : String) (timestamp : Nat) : String :=
  hexEncode ((keccak (sender ++ "-" ++ receiver ++ "-" ++ toString timestamp)).take 16)

/-- Point lookup of a `LookupMap`, modelled as an association list. -/
def mapGet {α : Type} : List (String × α) → String → Option α
  | [], _ => none
  | (k, v) :: rest, key => if k = key then some v else mapGet rest key

/-- Embeds `LookupMap::insert`: replace the binding for the key, or add it. -/
def mapInsert {α : Type} : List (String × α) → String → α → List (String × α)
  | [], key, v => [(key, v)]
  | (k, v') :: rest, key, v =>
    if k = key then (key, v) :: rest else (k, v') :: mapInsert rest key v

/-- Embeds `LookupMap::remove`: drop every binding for the key. -/
def mapRemove {α : Type} : List (String × α) → String → List (String × α)
  | [], _ => []
  | (k, v) :: rest, key =>
    if k = key then mapRemove rest key else (k, v) :: mapRemove rest key

/-- Embeds `UnorderedSet::insert`: no duplicate elements. -/
def setInsert (s : List String) (x : String) : List String :=
  if x ∈ s then s else s ++ [x]

/-- Embeds `UnorderedSet::remove`. -/
def setRemove (s : List String) (x : String) : List String :=
  s.filter (fun y => y ≠ x)

/-- Contract state from `lib.rs` (`struct FusionPlusContract`). -/
structure FusionPlusContract where
  owner : String
  htlcs : List (String × HTLC)
  active_htlcs : List (String × List String)
  eth_orchestrator : String
  supported_tokens : List String
  htlc_ids : List String
deriving DecidableEq, Repr

/-- Embeds `FusionPlusContract::new`. -/
def new (owner : String) : FusionPlusContract :=
  { owner := owner
    htlcs := []
    active_htlcs := []
    eth_orchestrator := ""
    supported_tokens := []
    htlc_ids := [] }

/-- Active-set insertion performed by `internal_create_htlc`
(`lib.rs` lines 151–161): insert into the sender's set, creating the set
when absent. -/
def addActive (m : List (String × List String)) (sender id : String) :
    List (String × List String) :=
  match mapGet m sender with
  | some s => mapInsert m sender (setInsert s id)
  | none => mapInsert m sender [id]

/-- Active-set removal performed by `withdraw` (`lib.rs` lines 251–260)
and `refund` (lines 341–350): remove the id from the sender's set, then
drop the sender's key entirely when the set became empty. -/
def removeActive (m : List (String × List String)) (sender id : String) :
    List (String × List String) :=
  let m1 :=
    match mapGet m sender with
    | some s => mapInsert m sender (setRemove s id)
    | none => m
  match mapGet m1 sender with
  | some s => if s.isEmpty then mapRemove m1 sender else m1
  | none => m1

/-- Embeds `lib.rs::internal_create_htlc` (lines 119–190): validate the
hashlock, the timelock, the custodied amount and the token custodian,
then store the new `Active` record, append its id and index it in the
sender's active set. -/
def internal_create_htlc (keccak : String → List Nat) (env : Env)
    (st : FusionPlusContract) (args : HTLCCreateArgs)
    (sender : String) (amount : Nat) :
    Except HTLCErr (FusionPlusContract × String) :=
  if validate_hashlock args.hashlock then
    if validate_timelock env.block_timestamp args.timelock then
      if amount = args.amount then
        if args.token = env.predecessor_account_id then
          let htlc_id := generate_htlc_id keccak sender args.receiver env.block_timestamp
          let htlc : HTLC :=
            { sender := sender
              receiver := args.receiver
              token := args.token
              amount := args.amount
              hashlock := args.hashlock
              timelock := args.timelock
              secret := none
              state := .Active
              created_at := current_timestamp_sec env.block_timestamp
              order_hash := args.order_hash }
          .ok ({ st with
                  htlcs := mapInsert st.htlcs htlc_id htlc
                  htlc_ids := st.htlc_ids ++ [htlc_id]
                  active_htlcs := addActive st.active_htlcs sender htlc_id },
               htlc_id)
        else .error .tokenMismatch
      else .error .insufficientDeposit
    else .error .invalidTimelock
  else .error .invalidHashlock

/-- Embeds `lib.rs::create_htlc` (lines 194–210): native-token path; requires a
positive attached deposit, forces the token to `"near"` and the amount to
the deposit, then calls `internal_create_htlc` with the caller as sender. -/
def create_htlc (keccak : String → List Nat) (env : Env)
    (st : FusionPlusContract) (args : HTLCCreateArgs) :
    Except HTLCErr (FusionPlusContract × String) :=
  if env.attached_deposit = 0 then .error .mustAttachDeposit
  else
    internal_create_htlc keccak env st
      { args with token := "near", amount := env.attached_deposit }
      env.predecessor_account_id env.attached_deposit

/-- Embeds `lib.rs::withdraw` (lines 216–302): checks, in source order, record
existence, `Active` state, caller = receiver, secret validity, and
`now < timelock`; then flips the state to `Withdrawn`, stores the secret,
removes the id from the sender's active set and requests one transfer of
`amount` to the receiver. -/
def withdraw (keccak : String → List Nat) (env : Env)
    (st : FusionPlusContract) (htlc_id secret : String) :
    Except HTLCErr (FusionPlusContract × Transfer) :=
  match mapGet st.htlcs htlc_id with
  | none => .error .htlcNotFound
  | some htlc =>
    if htlc.state = .Active then
      if env.predecessor_account_id = htlc.receiver then
        if validate_secret keccak secret htlc.hashlock then
          if current_timestamp_sec env.block_timestamp < htlc.timelock then
            let htlc' := { htlc with state := .Withdrawn, secret := some secret }
            .ok ({ st with
                    htlcs := mapInsert st.htlcs htlc_id htlc'
                    active_htlcs := removeActive st.active_htlcs htlc.sender htlc_id },
                 { receiver_id := htlc.receiver, amount := htlc.amount, token := htlc.token })
          else .error .withdrawalExpired
        else .error .invalidSecret
      else .error .unauthorized
    else .error .htlcNotActive

/-- Embeds `lib.rs::get_secret` (lines 305–308). -/
def get_secret (st : FusionPlusContract) (htlc_id : String) : Option String :=
  (mapGet st.htlcs htlc_id).bind (fun htlc => htlc.secret)

/-- Embeds `lib.rs::get_htlc` (lines 92–94). -/
def get_htlc (st : FusionPlusContract) (htlc_id : String) : Option HTLC :=
  mapGet st.htlcs htlc_id

/-- Embeds `lib.rs::refund` (lines 314–390): checks, in source order, record
existence, `Active` state, caller = sender, and `now >= timelock`; then
flips the state to `Refunded`, removes the id from the sender's active
set and requests one transfer of `amount` back to the sender. -/
def refund (env : Env) (st : FusionPlusContract) (htlc_id : String) :
    Except HTLCErr (FusionPlusContract × Transfer) :=
  match mapGet st.htlcs htlc_id with
  | none => .error .htlcNotFound
  | some htlc =>
    if htlc.state = .Active then
      if env.predecessor_account_id = htlc.sender then
        if htlc.timelock ≤ current_timestamp_sec env.block_timestamp then
          let htlc' := { htlc with state := .Refunded }
          .ok ({ st with
                  htlcs := mapInsert st.htlcs htlc_id htlc'
                  active_htlcs := removeActive st.active_htlcs htlc.sender htlc_id },
               { receiver_id := htlc.sender, amount := htlc.amount, token := htlc.token })
        else .error .timelockNotExpired
      else .error .unauthorized
    else .error .htlcNotActive

/-- Embeds `lib.rs::batch_refund` (lines 393–397): `refund` mapped over the ids;
since each `refund` may panic and a panic reverts the whole call, the
first failure aborts the batch. -/
def batch_refund (env : Env) (st : FusionPlusContract) :
    List String → Except HTLCErr (FusionPlusContract × List Transfer)
  | [] => .ok (st, [])
  | id :: rest =>
    match refund env st id with
    | .error e => .error e
    | .ok (st1, t) =>
      match batch_refund env st1 rest with
      | .error e => .error e
      | .ok (st2, ts) => .ok (st2, t :: ts)

/-- Embeds `lib.rs::validate_cross_chain_timelock` (lines 465–469). -/
def validate_cross_chain_timelock (near_timelock base_timelock : Nat) : Bool :=
  decide (near_timelock < base_timelock)

/-- Success test for `Except`. -/
def exOk {ε α : Type} : Except ε α → Bool
  | .ok _ => true
  | .error _ => false

/-! Concrete fixtures used to evaluate the embedded operations at
specific inputs.  `testHash` stands for one possible external hash
function: the contract treats `env::keccak256` as an oracle, so any
function of the right shape exercises the control flow. -/

/-- A concrete stand-in for the external keccak oracle: every input
hashes to 32 bytes `0xab`. -/
def testHash : String → List Nat := fun _ => List.replicate 32 171

/-- Lower-case hex encoding of the `testHash` digest (64 chars). -/
def hashAB : String := hexEncode (List.replicate 32 171)

/-- An `Active` record owned by `alice` for `bob`, expiring at
2000000000 s. -/
def htlc0 : HTLC :=
  { sender := "alice"
    receiver := "bob"
    token := "near"
    amount := 10
    hashlock := hashAB
    timelock := 2000000000
    secret := none
    state := .Active
    created_at := 1000000000
    order_hash := none }

/-- A contract state holding just `htlc0` under id `"h1"`. -/
def st0 : FusionPlusContract :=
  { new "owner" with
      htlcs := [("h1", htlc0)]
      active_htlcs := [("alice", ["h1"])]
      htlc_ids := ["h1"] }

/-- Environment with `bob` calling at 1000000000 s (before `htlc0`'s timelock). -/
def envBob : Env :=
  { predecessor_account_id := "bob"
    block_timestamp := 1000000000 * 1000000000
    attached_deposit := 0 }

/-- Environment with `alice` calling at 2000000000 s (at `htlc0`'s timelock). -/
def envAlice : Env :=
  { predecessor_account_id := "alice"
    block_timestamp := 2000000000 * 1000000000
    attached_deposit := 0 }

/-! The reachable-state step relation and the two data-model invariants.
One `Step` is one successful state-mutating entry point: a creation
(`create_htlc`, `batch_create_htlc` and `ft_on_transfer` all funnel into
`internal_create_htlc`), a withdrawal, or a refund; `batch_withdraw` and
`batch_refund` are sequences of such steps.  The creation step carries
the freshness hypothesis `mapGet st.htlcs id = none`: the spec (§3)
states that a record's id, once created, is never reused, and accepts
the hash-collision risk as negligible rather than eliminated, so the
invariants below are proved modulo that accepted assumption. -/
inductive Step (keccak : String → List Nat) :
    FusionPlusContract → FusionPlusContract → Prop
  | stepCreate (env : Env) (args : HTLCCreateArgs) (sender : String) (amount : Nat)
      (st st' : FusionPlusContract) (id : String)
      (hok : internal_create_htlc keccak env st args sender amount = .ok (st', id))
      (hfresh : mapGet st.htlcs id = none) :
      Step keccak st st'
  | stepWithdraw (env : Env) (htlc_id secret : String)
      (st st' : FusionPlusContract) (tr : Transfer)
      (hok : withdraw keccak env st htlc_id secret = .ok (st', tr)) :
      Step keccak st st'
  | stepRefund (env : Env) (htlc_id : String)
      (st st' : FusionPlusContract) (tr : Transfer)
      (hok : refund env st htlc_id = .ok (st', tr)) :
      Step keccak st st'

/-- Data-model invariant of §3: a record's secret is present exactly when
the record is `Withdrawn`. -/
def SecretInv (st : FusionPlusContract) : Prop :=
  ∀ id htlc, mapGet st.htlcs id = some htlc →
    (htlc.secret.isSome = true ↔ htlc.state = .Withdrawn)

/-- Membership of an id in one sender's active set. -/
def inActiveSet (st : FusionPlusContract) (sender id : String) : Prop :=
  id ∈ ((mapGet st.active_htlcs sender).getD [])

instance (st : FusionPlusContract) (sender id : String) :
    Decidable (inActiveSet st sender id) :=
  inferInstanceAs (Decidable (id ∈ ((mapGet st.active_htlcs sender).getD [])))

/-- Derived-index invariant of §3: an id is in a sender's active set iff
the record exists, belongs to that sender and is `Active`. -/
def ActiveSetInv (st : FusionPlusContract) : Prop :=
  ∀ sender id, inActiveSet st sender id ↔
    ∃ htlc, mapGet st.htlcs id = some htlc ∧
      htlc.sender = sender ∧ htlc.state = .Active

/-- Contract state after `bob` withdraws `htlc0` with secret `"sec"`. -/
def stW : FusionPlusContract :=
  match withdraw testHash envBob st0 "h1" "sec" with
  | .ok (s, _) => s
  | .error _ => st0

/-- Transfer produced by that withdrawal. -/
def trW : Transfer :=
  match withdraw testHash envBob st0 "h1" "sec" with
  | .ok (_, t) => t
  | .error _ => { receiver_id := "", amount := 0, token := "" }

/-- ASCII upper-casing of one character (hex letters a–f map to A–F). -/
def asciiUpper (c : Char) : Char :=
  if 'a' ≤ c ∧ c ≤ 'z' then Char.ofNat (c.toNat - 32) else c

/-- ASCII upper-casing of a string. -/
def strUpper (s : String) : String := ⟨s.data.map asciiUpper⟩

/-- Upper-case form of `hashAB`. -/
def hashABU : String := strUpper hashAB

/-- Like `htlc0` but with the hashlock stored in upper case. -/
def htlcU : HTLC := { htlc0 with hashlock := hashABU }

/-- A contract state holding just `htlcU` under id `"hU"`. -/
def stU : FusionPlusContract :=
  { new "owner" with
      htlcs := [("hU", htlcU)]
      active_htlcs := [("alice", ["hU"])]
      htlc_ids := ["hU"] }

/-- Environment with `bob.near` calling with 10 yoctoNEAR attached at second 10⁹. -/
def env4 : Env :=
  { predecessor_account_id := "bob.near"
    block_timestamp := 1000000000 * 1000000000
    attached_deposit := 10 }

/-- Well-formed creation arguments for the native path. -/
def args4 : HTLCCreateArgs :=
  { receiver := "alice.near"
    token := "near"
    amount := 10
    hashlock := hashAB
    timelock := 2000000000
    order_hash := none }

/-- Arguments with a malformed hashlock. -/
def argsBadHL : HTLCCreateArgs :=
  { receiver := "bob", token := "near", amount := 5,
    hashlock := "zz", timelock := 2000000000, order_hash := none }

/-- Arguments whose timelock (2·10⁹ s) is not in the future at 2·10⁹ s. -/
def argsPastTL : HTLCCreateArgs :=
  { receiver := "bob", token := "near", amount := 5,
    hashlock := hashAB, timelock := 2000000000, order_hash := none }

/-- Well-formed arguments declaring amount 5. -/
def argsAmt : HTLCCreateArgs :=
  { receiver := "bob", token := "near", amount := 5,
    hashlock := hashAB, timelock := 2000000000, order_hash := none }

/-- Environment with token contract `"tok"` calling at second 10⁹. -/
def envTok : Env :=
  { predecessor_account_id := "tok"
    block_timestamp := 1000000000 * 1000000000
    attached_deposit := 0 }

/-- Creation arguments for a NEP-141 HTLC held in token `"tok"`. -/
def argsTok : HTLCCreateArgs :=
  { receiver := "bob", token := "tok", amount := 5,
    hashlock := hashAB, timelock := 2000000000, order_hash := none }

/-- Contract state after `alice` creates that HTLC via the token path. -/
def stC : FusionPlusContract :=
  match internal_create_htlc testHash envTok (new "owner") argsTok "alice" 5 with
  | .ok (s, _) => s
  | .error _ => new "owner"

/-- Id returned by that creation. -/
def idC : String :=
  match internal_create_htlc testHash envTok (new "owner") argsTok "alice" 5 with
  | .ok (_, i) => i
  | .error _ => ""

/-- An `Active` escrow owned by `alice`, already expired at 2·10⁹ s. -/
def htlcR : HTLC :=
  { sender := "alice"
    receiver := "bob"
    token := "near"
    amount := 7
    hashlock := hashAB
    timelock := 1500000000
    secret := none
    state := .Active
    created_at := 0
    order_hash := none }

/-- A contract state holding just `htlcR` under id `"g"`. -/
def stR : FusionPlusContract :=
  { new "owner" with
      htlcs := [("g", htlcR)]
      active_htlcs := [("alice", ["g"])]
      htlc_ids := ["g"] }

/-! Lemmas about the storage primitives. -/

theorem mapGet_insert_self {α : Type} (m : List (String × α)) (k : String) (v : α) :
    mapGet (mapInsert m k v) k = some v := by
  induction m with
  | nil => simp [mapInsert, mapGet]
  | cons hd tl ih =>
    obtain ⟨k', v'⟩ := hd
    by_cases h : k' = k <;> simp [mapInsert, h, mapGet, ih]

theorem mapGet_insert_ne {α : Type} (m : List (String × α)) (k k' : String) (v : α)
    (h : k ≠ k') : mapGet (mapInsert m k v) k' = mapGet m k' := by
  induction m with
  | nil => simp [mapInsert, mapGet, h]
  | cons hd tl ih =>
    obtain ⟨a, b⟩ := hd
    by_cases ha : a = k
    · subst ha
      simp [mapInsert, mapGet, h]
    · by_cases ha' : a = k' <;> simp [mapInsert, mapGet, ha, ha', ih, Ne.symm h]

theorem mapGet_remove_self {α : Type} (m : List (String × α)) (k : String) :
    mapGet (mapRemove m k) k = none := by
  induction m with
  | nil => simp [mapRemove, mapGet]
  | cons hd tl ih =>
    obtain ⟨a, b⟩ := hd
    by_cases ha : a = k <;> simp [mapRemove, mapGet, ha, ih]

theorem mapGet_remove_ne {α : Type} (m : List (String × α)) (k k' : String)
    (h : k ≠ k') : mapGet (mapRemove m k) k' = mapGet m k' := by
  induction m with
  | nil => simp [mapRemove, mapGet]
  | cons hd tl ih =>
    obtain ⟨a, b⟩ := hd
    by_cases ha : a = k
    · subst ha
      simp [mapRemove, mapGet, h, ih]
    · by_cases ha' : a = k' <;> simp [mapRemove, mapGet, ha, ha', ih, Ne.symm h]

theorem mem_setInsert (s : List String) (x y : String) :
    y ∈ setInsert s x ↔ y = x ∨ y ∈ s := by
  unfold setInsert
  split
  · rename_i hx
    constructor
    · exact Or.inr
    · rintro (rfl | h)
      · exact hx
      · exact h
  · simp [List.mem_append, or_comm]

theorem mem_setRemove (s : List String) (x y : String) :
    y ∈ setRemove s x ↔ y ∈ s ∧ y ≠ x := by
  simp [setRemove, List.mem_filter]

theorem mem_addActive (m : List (String × List String)) (sender id sndr y : String) :
    y ∈ (mapGet (addActive m sender id) sndr).getD [] ↔
      (sndr = sender ∧ y = id) ∨ y ∈ (mapGet m sndr).getD [] := by
  unfold addActive
  by_cases hs : sndr = sender
  · subst hs
    cases hg : mapGet m sndr with
    | none => simp [hg, mapGet_insert_self]
    | some s => simp [hg, mapGet_insert_self, mem_setInsert]
  · have hs' : sender ≠ sndr := fun h => hs h.symm
    cases hg : mapGet m sender with
    | none => simp [hg, mapGet_insert_ne _ _ _ _ hs', hs]
    | some s => simp [hg, mapGet_insert_ne _ _ _ _ hs', hs]

theorem mem_removeActive (m : List (String × List String)) (sender id sndr y : String) :
    y ∈ (mapGet (removeActive m sender id) sndr).getD [] ↔
      y ∈ (mapGet m sndr).getD [] ∧ ¬(sndr = sender ∧ y = id) := by
  unfold removeActive
  by_cases hs : sndr = sender
  · subst hs
    cases hg : mapGet m sndr with
    | none => simp [hg]
    | some s =>
      simp only [hg, mapGet_insert_self]
      by_cases he : (setRemove s id).isEmpty = true
      · rw [if_pos he, mapGet_remove_self]
        have hnil : setRemove s id = [] := by
          cases hsr : setRemove s id with
          | nil => rfl
          | cons a l => rw [hsr] at he; simp at he
        simp only [Option.getD_none, Option.getD_some, List.not_mem_nil, false_iff]
        rintro ⟨hy, hnot⟩
        have hy' : y ∈ setRemove s id :=
          (mem_setRemove s id y).mpr ⟨hy, fun h => hnot ⟨by trivial, h⟩⟩
        rw [hnil] at hy'
        simp at hy'
      · rw [if_neg he, mapGet_insert_self]
        simp only [Option.getD_some, mem_setRemove]
        constructor
        · rintro ⟨hy, hne⟩
          exact ⟨hy, fun h => hne h.2⟩
        · rintro ⟨hy, hnot⟩
          exact ⟨hy, fun h => hnot ⟨by trivial, h⟩⟩
  · have hs' : sender ≠ sndr := fun h => hs h.symm
    cases hg : mapGet m sender with
    | none =>
      simp only [hg]
      simp [hs]
    | some s =>
      simp only [hg]
      have h1 : mapGet (mapInsert m sender (setRemove s id)) sndr = mapGet m sndr :=
        mapGet_insert_ne _ _ _ _ hs'
      cases hg1 : mapGet (mapInsert m sender (setRemove s id)) sender with
      | none => simp only [hg1]; simp [h1, hs]
      | some s1 =>
        simp only [hg1]
        by_cases he : s1.isEmpty = true
        · rw [if_pos he, mapGet_remove_ne _ _ _ hs', h1]
          simp [hs]
        · rw [if_neg he, h1]
          simp [hs]

/-! Inversion lemmas: what a successful call tells us. -/

theorem withdraw_ok {keccak : String → List Nat} {env : Env}
    {st st' : FusionPlusContract} {htlc_id secret : String} {tr : Transfer}
    (h : withdraw keccak env st htlc_id secret = .ok (st', tr)) :
    ∃ htlc, mapGet st.htlcs htlc_id = some htlc ∧
      htlc.state = .Active ∧
      env.predecessor_account_id = htlc.receiver ∧
      validate_secret keccak secret htlc.hashlock = true ∧
      current_timestamp_sec env.block_timestamp < htlc.timelock ∧
      st' = { st with
               htlcs := mapInsert st.htlcs htlc_id
                 { htlc with state := .Withdrawn, secret := some secret }
               active_htlcs := removeActive st.active_htlcs htlc.sender htlc_id } ∧
      tr = { receiver_id := htlc.receiver, amount := htlc.amount, token := htlc.token } := by
  unfold withdraw at h
  cases hg : mapGet st.htlcs htlc_id with
  | none => simp only [hg] at h; exact Except.noConfusion h
  | some htlc =>
    simp only [hg] at h
    split_ifs at h with h1 h2 h3 h4
    · simp only [Except.ok.injEq, Prod.mk.injEq] at h
      exact ⟨htlc, rfl, h1, h2, h3, h4, h.1.symm, h.2.symm⟩

theorem refund_ok {env : Env} {st st' : FusionPlusContract}
    {htlc_id : String} {tr : Transfer}
    (h : refund env st htlc_id = .ok (st', tr)) :
    ∃ htlc, mapGet st.htlcs htlc_id = some htlc ∧
      htlc.state = .Active ∧
      env.predecessor_account_id = htlc.sender ∧
      htlc.timelock ≤ current_timestamp_sec env.block_timestamp ∧
      st' = { st with
               htlcs := mapInsert st.htlcs htlc_id { htlc with state := .Refunded }
               active_htlcs := removeActive st.active_htlcs htlc.sender htlc_id } ∧
      tr = { receiver_id := htlc.sender, amount := htlc.amount, token := htlc.token } := by
  unfold refund at h
  cases hg : mapGet st.htlcs htlc_id with
  | none => simp only [hg] at h; exact Except.noConfusion h
  | some htlc =>
    simp only [hg] at h
    split_ifs at h with h1 h2 h3
    · simp only [Except.ok.injEq, Prod.mk.injEq] at h
      exact ⟨htlc, rfl, h1, h2, h3, h.1.symm, h.2.symm⟩

theorem internal_create_ok {keccak : String → List Nat} {env : Env}
    {st st' : FusionPlusContract} {args : HTLCCreateArgs}
    {sender : String} {amount : Nat} {id : String}
    (h : internal_create_htlc keccak env st args sender amount = .ok (st', id)) :
    validate_hashlock args.hashlock = true ∧
    validate_timelock env.block_timestamp args.timelock = true ∧
    amount = args.amount ∧
    args.token = env.predecessor_account_id ∧
    id = generate_htlc_id keccak sender args.receiver env.block_timestamp ∧
    st' = { st with
             htlcs := mapInsert st.htlcs id
               { sender := sender
                 receiver := args.receiver
                 token := args.token
                 amount := args.amount
                 hashlock := args.hashlock
                 timelock := args.timelock
                 secret := none
                 state := .Active
                 created_at := current_timestamp_sec env.block_timestamp
                 order_hash := args.order_hash }
             htlc_ids := st.htlc_ids ++ [id]
             active_htlcs := addActive st.active_htlcs sender id } := by
  unfold internal_create_htlc at h
  split_ifs at h with h1 h2 h3 h4
  · simp only [Except.ok.injEq, Prod.mk.injEq] at h
    obtain ⟨hst, hid⟩ := h
    subst hid
    exact ⟨h1, h2, h3, h4, rfl, hst.symm⟩

/-- A record that is not `Active` makes `withdraw` fail with the
not-active panic, whatever the caller, secret or time. -/
theorem withdraw_notActive {keccak : String → List Nat} (env : Env)
    (st : FusionPlusContract) (htlc_id secret : String) {htlc : HTLC}
    (hg : mapGet st.htlcs htlc_id = some htlc)
    (hst : htlc.state ≠ .Active) :
    withdraw keccak env st htlc_id secret = .error .htlcNotActive := by
  unfold withdraw
  simp only [hg]
  rw [if_neg hst]

/-- A record that is not `Active` makes `refund` fail with the
not-active panic, whatever the caller or time. -/
theorem refund_notActive (env : Env)
    (st : FusionPlusContract) (htlc_id : String) {htlc : HTLC}
    (hg : mapGet st.htlcs htlc_id = some htlc)
    (hst : htlc.state ≠ .Active) :
    refund env st htlc_id = .error .htlcNotActive := by
  unfold refund
  simp only [hg]
  rw [if_neg hst]

theorem secretInv_step {keccak : String → List Nat}
    {st st' : FusionPlusContract}
    (hinv : SecretInv st) (hstep : Step keccak st st') : SecretInv st' := by
  cases hstep with
  | stepCreate env args sender amount st st' id hok hfresh =>
    obtain ⟨-, -, -, -, -, rfl⟩ := internal_create_ok hok
    intro i htlc hi
    by_cases hik : id = i
    · subst hik
      rw [mapGet_insert_self] at hi
      cases hi
      simp
    · rw [mapGet_insert_ne _ _ _ _ hik] at hi
      exact hinv i htlc hi
  | stepWithdraw env htlc_id secret st st' tr hok =>
    obtain ⟨htlc, hg, -, -, -, -, rfl, -⟩ := withdraw_ok hok
    intro i h hi
    by_cases hik : htlc_id = i
    · subst hik
      rw [mapGet_insert_self] at hi
      cases hi
      simp
    · rw [mapGet_insert_ne _ _ _ _ hik] at hi
      exact hinv i h hi
  | stepRefund env htlc_id st st' tr hok =>
    obtain ⟨htlc, hg, hact, -, -, rfl, -⟩ := refund_ok hok
    intro i h hi
    by_cases hik : htlc_id = i
    · subst hik
      rw [mapGet_insert_self] at hi
      cases hi
      have := hinv htlc_id htlc hg
      simp only [hact] at this
      constructor
      · intro hsome
        exact absurd (this.mp hsome) (by simp)
      · intro hcon
        exact absurd hcon (by simp)
    · rw [mapGet_insert_ne _ _ _ _ hik] at hi
      exact hinv i h hi

theorem activeInv_step {keccak : String → List Nat}
    {st st' : FusionPlusContract}
    (hinv : ActiveSetInv st) (hstep : Step keccak st st') : ActiveSetInv st' := by
  cases hstep with
  | stepCreate env args sender amount st st' id hok hfresh =>
    obtain ⟨-, -, -, -, -, rfl⟩ := internal_create_ok hok
    intro sndr y
    unfold inActiveSet
    simp only [mem_addActive]
    by_cases hyid : id = y
    · subst hyid
      simp only [mapGet_insert_self]
      constructor
      · rintro (⟨rfl, -⟩ | hold)
        · exact ⟨_, rfl, rfl, rfl⟩
        · exfalso
          obtain ⟨h, hgy, -, -⟩ := (hinv sndr id).mp hold
          rw [hfresh] at hgy
          exact Option.noConfusion hgy
      · rintro ⟨h, hh, hsnd, -⟩
        cases hh
        exact Or.inl ⟨hsnd.symm, by trivial⟩
    · simp only [mapGet_insert_ne _ _ _ _ hyid]
      constructor
      · rintro (⟨rfl, rfl⟩ | hold)
        · exact absurd rfl hyid
        · exact (hinv sndr y).mp hold
      · intro hr
        exact Or.inr ((hinv sndr y).mpr hr)
  | stepWithdraw env htlc_id secret st st' tr hok =>
    obtain ⟨htlc, hg, hact, -, -, -, rfl, -⟩ := withdraw_ok hok
    intro sndr y
    unfold inActiveSet
    simp only [mem_removeActive]
    by_cases hyid : htlc_id = y
    · subst hyid
      simp only [mapGet_insert_self]
      constructor
      · rintro ⟨hold, hnot⟩
        exfalso
        obtain ⟨h, hgy, hsnd, -⟩ := (hinv sndr htlc_id).mp hold
        rw [hg] at hgy
        cases hgy
        exact hnot ⟨hsnd.symm, by trivial⟩
      · rintro ⟨h, hh, -, hstate⟩
        cases hh
        exact absurd hstate (by simp)
    · simp only [mapGet_insert_ne _ _ _ _ hyid]
      constructor
      · rintro ⟨hold, -⟩
        exact (hinv sndr y).mp hold
      · intro hr
        refine ⟨(hinv sndr y).mpr hr, ?_⟩
        rintro ⟨-, rfl⟩
        exact hyid rfl
  | stepRefund env htlc_id st st' tr hok =>
    obtain ⟨htlc, hg, hact, -, -, rfl, -⟩ := refund_ok hok
    intro sndr y
    unfold inActiveSet
    simp only [mem_removeActive]
    by_cases hyid : htlc_id = y
    · subst hyid
      simp only [mapGet_insert_self]
      constructor
      · rintro ⟨hold, hnot⟩
        exfalso
        obtain ⟨h, hgy, hsnd, -⟩ := (hinv sndr htlc_id).mp hold
        rw [hg] at hgy
        cases hgy
        exact hnot ⟨hsnd.symm, by trivial⟩
      · rintro ⟨h, hh, -, hstate⟩
        cases hh
        exact absurd hstate (by simp)
    · simp only [mapGet_insert_ne _ _ _ _ hyid]
      constructor
      · rintro ⟨hold, -⟩
        exact (hinv sndr y).mp hold
      · intro hr
        refine ⟨(hinv sndr y).mpr hr, ?_⟩
        rintro ⟨-, rfl⟩
        exact hyid rfl

/-- One step never erases a revealed secret: if `id`'s record already
carries secret `s` (hence, by `SecretInv`, is `Withdrawn`), the record
still carries `s` after any successful operation. -/
theorem get_secret_step {keccak : String → List Nat}
    {st st' : FusionPlusContract} {id s : String}
    (hinv : SecretInv st) (hsec : get_secret st id = some s)
    (hstep : Step keccak st st') : get_secret st' id = some s := by
  unfold get_secret at hsec ⊢
  cases hg : mapGet st.htlcs id with
  | none => rw [hg] at hsec; exact Option.noConfusion hsec
  | some htlc =>
    rw [hg] at hsec
    simp only [Option.some_bind] at hsec
    have hwd : htlc.state = .Withdrawn := by
      have := hinv id htlc hg
      exact this.mp (by simp [hsec])
    cases hstep with
    | stepCreate env args sender amount st st' nid hok hfresh =>
      obtain ⟨-, -, -, -, -, rfl⟩ := internal_create_ok hok
      have hne : nid ≠ id := by
        intro he
        rw [he, hg] at hfresh
        exact Option.noConfusion hfresh
      simp only [mapGet_insert_ne _ _ _ _ hne, hg, Option.some_bind]
      exact hsec
    | stepWithdraw env htlc_id secret st st' tr hok =>
      obtain ⟨h, hgw, hact, -, -, -, rfl, -⟩ := withdraw_ok hok
      have hne : htlc_id ≠ id := by
        intro he
        rw [he, hg] at hgw
        cases hgw
        rw [hwd] at hact
        exact HTLCState.noConfusion hact
      simp only [mapGet_insert_ne _ _ _ _ hne, hg, Option.some_bind]
      exact hsec
    | stepRefund env htlc_id st st' tr hok =>
      obtain ⟨h, hgw, hact, -, -, rfl, -⟩ := refund_ok hok
      have hne : htlc_id ≠ id := by
        intro he
        rw [he, hg] at hgw
        cases hgw
        rw [hwd] at hact
        exact HTLCState.noConfusion hact
      simp only [mapGet_insert_ne _ _ _ _ hne, hg, Option.some_bind]
      exact hsec

theorem secretInv_steps {keccak : String → List Nat}
    {st st' : FusionPlusContract} (hinv : SecretInv st)
    (h : Relation.ReflTransGen (Step keccak) st st') : SecretInv st' := by
  induction h with
  | refl => exact hinv
  | tail hab hbc ih => exact secretInv_step ih hbc

theorem activeInv_steps {keccak : String → List Nat}
    {st st' : FusionPlusContract} (hinv : ActiveSetInv st)
    (h : Relation.ReflTransGen (Step keccak) st st') : ActiveSetInv st' := by
  induction h with
  | refl => exact hinv
  | tail hab hbc ih => exact activeInv_step ih hbc

theorem get_secret_steps {keccak : String → List Nat}
    {st st' : FusionPlusContract} {id s : String}
    (hinv : SecretInv st) (hsec : get_secret st id = some s)
    (h : Relation.ReflTransGen (Step keccak) st st') : get_secret st' id = some s := by
  induction h with
  | refl => exact hsec
  | tail hab hbc ih => exact get_secret_step (secretInv_steps hinv hab) ih hbc

theorem secretInv_new (owner : String) : SecretInv (new owner) := by
  intro id htlc h
  exact Option.noConfusion h

theorem activeInv_new (owner : String) : ActiveSetInv (new owner) := by
  intro sender id
  unfold inActiveSet
  constructor
  · intro h
    simp [new, mapGet] at h
  · rintro ⟨htlc, h, -, -⟩
    exact Option.noConfusion h

/-- C1: a successful withdraw and a successful refund can never both
occur on one record: both require the `Active` state, the first success
flips the state to `Withdrawn` or `Refunded`, and any second withdraw or
refund on the same id fails with the not-active panic — which, in this
embedding, returns no new state and no transfer. -/
theorem mutual_exclusion_C1 {keccak : String → List Nat} (env : Env)
    (st st' : FusionPlusContract) (htlc_id secret : String) (tr : Transfer) :
    (withdraw keccak env st htlc_id secret = .ok (st', tr) →
      ∀ (env2 : Env) (secret2 : String),
        withdraw keccak env2 st' htlc_id secret2 = .error .htlcNotActive ∧
        refund env2 st' htlc_id = .error .htlcNotActive) ∧
    (refund env st htlc_id = .ok (st', tr) →
      ∀ (env2 : Env) (secret2 : String),
        withdraw keccak env2 st' htlc_id secret2 = .error .htlcNotActive ∧
        refund env2 st' htlc_id = .error .htlcNotActive) := by
  constructor
  · intro hok env2 secret2
    obtain ⟨htlc, hg, -, -, -, -, rfl, -⟩ := withdraw_ok hok
    refine ⟨withdraw_notActive env2 _ htlc_id secret2 (mapGet_insert_self _ _ _) (by simp),
            refund_notActive env2 _ htlc_id (mapGet_insert_self _ _ _) (by simp)⟩
  · intro hok env2 secret2
    obtain ⟨htlc, hg, -, -, -, rfl, -⟩ := refund_ok hok
    refine ⟨withdraw_notActive env2 _ htlc_id secret2 (mapGet_insert_self _ _ _) (by simp),
            refund_notActive env2 _ htlc_id (mapGet_insert_self _ _ _) (by simp)⟩

/-- C1 witness: after `bob`'s successful withdrawal of `"h1"`, a second
withdraw and a refund both fail with the not-active panic. -/
theorem mutual_exclusion_C1_witness :
    withdraw testHash envBob stW "h1" "sec" = .error .htlcNotActive ∧
    refund envBob stW "h1" = .error .htlcNotActive :=
  (@mutual_exclusion_C1 testHash envBob st0 stW "h1" "sec" trW).1 (by decide) envBob "sec"

/-- C2: for an `Active` record, with the caller equal to the declared
receiver and a valid secret, withdraw succeeds iff `now < timelock` (at
`now = timelock` it fails with the expiry panic); symmetrically, with
the caller equal to the declared sender, refund succeeds iff
`now ≥ timelock`. -/
theorem timelock_boundary_C2 {keccak : String → List Nat} (env : Env)
    (st : FusionPlusContract) (htlc_id secret : String) (htlc : HTLC)
    (hg : mapGet st.htlcs htlc_id = some htlc)
    (hact : htlc.state = .Active) :
    (env.predecessor_account_id = htlc.receiver →
     validate_secret keccak secret htlc.hashlock = true →
     (((∃ st' tr, withdraw keccak env st htlc_id secret = .ok (st', tr)) ↔
         current_timestamp_sec env.block_timestamp < htlc.timelock) ∧
      (current_timestamp_sec env.block_timestamp = htlc.timelock →
        withdraw keccak env st htlc_id secret = .error .withdrawalExpired))) ∧
    (env.predecessor_account_id = htlc.sender →
     ((∃ st' tr, refund env st htlc_id = .ok (st', tr)) ↔
       htlc.timelock ≤ current_timestamp_sec env.block_timestamp)) := by
  constructor
  · intro hrecv hsec
    constructor
    · constructor
      · rintro ⟨st', tr, hok⟩
        obtain ⟨h, hg', -, -, -, ht, -, -⟩ := withdraw_ok hok
        rw [hg] at hg'
        injection hg' with he
        subst he
        exact ht
      · intro ht
        unfold withdraw
        simp only [hg]
        rw [if_pos hact, if_pos hrecv, if_pos hsec, if_pos ht]
        exact ⟨_, _, rfl⟩
    · intro heq
      unfold withdraw
      simp only [hg]
      rw [if_pos hact, if_pos hrecv, if_pos hsec, if_neg (by omega)]
  · intro hsend
    constructor
    · rintro ⟨st', tr, hok⟩
      obtain ⟨h, hg', -, -, ht, -, -⟩ := refund_ok hok
      rw [hg] at hg'
      injection hg' with he
      subst he
      exact ht
    · intro ht
      unfold refund
      simp only [hg]
      rw [if_pos hact, if_pos hsend, if_pos ht]
      exact ⟨_, _, rfl⟩

/-- C2 witness: in `st0`, `bob` can withdraw at second 10⁹ (before the
timelock 2·10⁹), and `alice` can refund at second 2·10⁹ (at the
timelock). -/
theorem timelock_boundary_C2_witness :
    (∃ st' tr, withdraw testHash envBob st0 "h1" "sec" = .ok (st', tr)) ∧
    (∃ st' tr, refund envAlice st0 "h1" = .ok (st', tr)) :=
  ⟨((@timelock_boundary_C2 testHash envBob st0 "h1" "sec" htlc0
      (by decide) (by decide)).1 (by decide) (by decide)).1.mpr (by decide),
   ((@timelock_boundary_C2 testHash envAlice st0 "h1" "sec" htlc0
      (by decide) (by decide)).2 (by decide)).mpr (by decide)⟩

/-- C3 counterexample: a syntactically valid stored hashlock that is
exactly the upper-case form of the hex encoding of the secret's hash —
so it differs from it only in hex-letter case — is rejected:
`validate_secret` compares case-sensitively after stripping `0x`, so the
receiver's timely withdraw fails with the invalid-secret panic instead
of being accepted. -/
theorem hash_case_C3_counterexample :
    validate_hashlock hashABU = true ∧
    hashABU = strUpper (hexEncode (testHash "sec")) ∧
    hashABU ≠ hexEncode (testHash "sec") ∧
    htlcU.state = .Active ∧
    envBob.predecessor_account_id = htlcU.receiver ∧
    current_timestamp_sec envBob.block_timestamp < htlcU.timelock ∧
    withdraw testHash envBob stU "hU" "sec" = .error .invalidSecret := by decide

/-- C3 amended: for an `Active` record, a withdraw by the receiver
before expiry succeeds iff the lower-case hex encoding of the secret's
hash equals, character for character, the stored hashlock after removing
leading `0x` occurrences; the comparison is case-sensitive (a hashlock
differing only in letter case is not matched), and on any mismatch
withdraw fails with the invalid-secret panic. -/
theorem hash_exact_match_C3 {keccak : String → List Nat} (env : Env)
    (st : FusionPlusContract) (htlc_id secret : String) (htlc : HTLC)
    (hg : mapGet st.htlcs htlc_id = some htlc)
    (hact : htlc.state = .Active)
    (hrecv : env.predecessor_account_id = htlc.receiver)
    (htime : current_timestamp_sec env.block_timestamp < htlc.timelock) :
    ((∃ st' tr, withdraw keccak env st htlc_id secret = .ok (st', tr)) ↔
      hexEncode (keccak secret) = trimHex0x htlc.hashlock) ∧
    (hexEncode (keccak secret) ≠ trimHex0x htlc.hashlock →
      withdraw keccak env st htlc_id secret = .error .invalidSecret) := by
  have hval : validate_secret keccak secret htlc.hashlock = true ↔
      hexEncode (keccak secret) = trimHex0x htlc.hashlock := by
    unfold validate_secret
    exact beq_iff_eq
  constructor
  · constructor
    · rintro ⟨st', tr, hok⟩
      obtain ⟨h, hg', -, -, hsec, -, -, -⟩ := withdraw_ok hok
      rw [hg] at hg'
      injection hg' with he
      subst he
      exact hval.mp hsec
    · intro heq
      unfold withdraw
      simp only [hg]
      rw [if_pos hact, if_pos hrecv, if_pos (hval.mpr heq), if_pos htime]
      exact ⟨_, _, rfl⟩
  · intro hne
    unfold withdraw
    simp only [hg]
    rw [if_pos hact, if_pos hrecv, if_neg (fun hv => hne (hval.mp hv))]

/-- C3 witness: an exactly matching lower-case hashlock is accepted. -/
theorem hash_exact_match_C3_witness :
    ∃ st' tr, withdraw testHash envBob st0 "h1" "sec2" = .ok (st', tr) :=
  ((@hash_exact_match_C3 testHash envBob st0 "h1" "sec2" htlc0
      (by decide) (by decide) (by decide) (by decide)).1).mpr (by decide)

/-- C4 (code bug): a direct `create_htlc` call with a positive attached
deposit, a valid hashlock and a future timelock still panics.  The
native path forces `token := "near"`, and `internal_create_htlc` then
asserts `args.token == env::predecessor_account_id()` — a check meant
for the `ft_on_transfer` path, where the token contract is the
predecessor — so creation fails with the token-mismatch panic for every
caller whose account id is not literally `"near"`, storing no record and
returning no id.  This contradicts the repository's own unit test
`test_create_htlc_native` (tests/unit/test_htlc.rs), which calls
`create_htlc` from an ordinary account and expects success, and the
method's own doc comment "Direct HTLC creation (for testing or direct
calls)". -/
theorem create_htlc_token_mismatch_C4 :
    env4.attached_deposit > 0 ∧
    validate_hashlock args4.hashlock = true ∧
    validate_timelock env4.block_timestamp args4.timelock = true ∧
    env4.predecessor_account_id ≠ "near" ∧
    create_htlc testHash env4 (new "owner") args4 = .error .tokenMismatch := by decide

/-- C5: escrow creation checks the hashlock syntax, the future timelock
and the exact custodied amount before any mutation; if one of them
fails, the whole creation aborts with the corresponding panic — in this
embedding an `.error` result carrying no new state, so no record is
stored, nothing is appended to the id index and no active set changes.
A successful creation certifies all three preconditions. -/
theorem create_guards_C5 {keccak : String → List Nat} (env : Env)
    (st : FusionPlusContract) (args : HTLCCreateArgs)
    (sender : String) (amount : Nat) :
    (validate_hashlock args.hashlock = false →
       internal_create_htlc keccak env st args sender amount = .error .invalidHashlock) ∧
    (validate_hashlock args.hashlock = true →
     validate_timelock env.block_timestamp args.timelock = false →
       internal_create_htlc keccak env st args sender amount = .error .invalidTimelock) ∧
    (validate_hashlock args.hashlock = true →
     validate_timelock env.block_timestamp args.timelock = true →
     amount ≠ args.amount →
       internal_create_htlc keccak env st args sender amount = .error .insufficientDeposit) ∧
    (∀ st' id, internal_create_htlc keccak env st args sender amount = .ok (st', id) →
       validate_hashlock args.hashlock = true ∧
       validate_timelock env.block_timestamp args.timelock = true ∧
       amount = args.amount) := by
  refine ⟨?_, ?_, ?_, ?_⟩
  · intro h
    unfold internal_create_htlc
    rw [if_neg (by simp [h])]
  · intro h1 h2
    unfold internal_create_htlc
    rw [if_pos h1, if_neg (by simp [h2])]
  · intro h1 h2 h3
    unfold internal_create_htlc
    rw [if_pos h1, if_pos h2, if_neg h3]
  · intro st' id hok
    obtain ⟨a, b, c, -, -, -⟩ := internal_create_ok hok
    exact ⟨a, b, c⟩

/-- C5 witness: each of the three guards fires at a concrete input. -/
theorem create_guards_C5_witness :
    internal_create_htlc testHash envBob (new "owner") argsBadHL "alice" 5
      = .error .invalidHashlock ∧
    internal_create_htlc testHash envAlice (new "owner") argsPastTL "alice" 5
      = .error .invalidTimelock ∧
    internal_create_htlc testHash envBob (new "owner") argsAmt "alice" 7
      = .error .insufficientDeposit :=
  ⟨(@create_guards_C5 testHash envBob (new "owner") argsBadHL "alice" 5).1 (by decide),
   (@create_guards_C5 testHash envAlice (new "owner") argsPastTL "alice" 5).2.1
     (by decide) (by decide),
   (@create_guards_C5 testHash envBob (new "owner") argsAmt "alice" 7).2.2.1
     (by decide) (by decide) (by decide)⟩

/-- C6: the cross-chain ordering check is a pure strict comparison:
for all 64-bit values it returns true iff the destination (NEAR)
timelock is strictly below the source (BASE) timelock, and false on
equal values. -/
theorem ordering_pure_C6 (d s : Nat) (hd : d < 2 ^ 64) (hs : s < 2 ^ 64) :
    (validate_cross_chain_timelock d s = true ↔ d < s) ∧
    (d = s → validate_cross_chain_timelock d s = false) := by
  unfold validate_cross_chain_timelock
  constructor
  · simp
  · rintro rfl
    simp

/-- C6 witness: evaluated at 3 and 5, and at equal values 4 and 4. -/
theorem ordering_pure_C6_witness :
    (validate_cross_chain_timelock 3 5 = true ↔ 3 < 5) ∧
    (validate_cross_chain_timelock 4 4 = false) :=
  ⟨(ordering_pure_C6 3 5 (by decide) (by decide)).1,
   (ordering_pure_C6 4 4 (by decide) (by decide)).2 rfl⟩

/-- C7: the secret field is `Some` iff the record is `Withdrawn` — the
invariant holds in the freshly initialised contract and is preserved by
every sequence of successful operations (modulo the spec's id-freshness
assumption carried by `Step`); a successful withdraw makes `get_secret`
return the accepted secret, and it keeps returning it after any further
sequence of operations. -/
theorem secret_iff_withdrawn_C7 (keccak : String → List Nat) :
    (∀ owner, SecretInv (new owner)) ∧
    (∀ st st', SecretInv st →
       Relation.ReflTransGen (Step keccak) st st' → SecretInv st') ∧
    (∀ env st st' htlc_id secret tr,
       withdraw keccak env st htlc_id secret = .ok (st', tr) →
       get_secret st' htlc_id = some secret) ∧
    (∀ st st' id s, SecretInv st → get_secret st id = some s →
       Relation.ReflTransGen (Step keccak) st st' → get_secret st' id = some s) := by
  refine ⟨secretInv_new, fun st st' => secretInv_steps, ?_, fun st st' id s => get_secret_steps⟩
  intro env st st' htlc_id secret tr hok
  obtain ⟨htlc, -, -, -, -, -, rfl, -⟩ := withdraw_ok hok
  unfold get_secret
  simp only [mapGet_insert_self, Option.some_bind]

/-- C7 witness: after `bob`'s withdrawal in `stW`, the secret `"sec"` is
retrievable. -/
theorem secret_iff_withdrawn_C7_witness :
    get_secret stW "h1" = some "sec" :=
  (secret_iff_withdrawn_C7 testHash).2.2.1 envBob st0 stW "h1" "sec" trW (by decide)

/-- C8: the per-sender active-set index mirrors the record store — an id
is in a sender's active set iff that sender's record with that id exists
and is `Active`.  The invariant holds in the freshly initialised
contract and is preserved by every sequence of successful operations
(modulo the spec's id-freshness assumption carried by `Step`); creation
puts the new id in its sender's set in the same call, and a successful
withdraw or refund removes the id from every active set in the same
call. -/
theorem active_set_iff_C8 (keccak : String → List Nat) :
    (∀ owner, ActiveSetInv (new owner)) ∧
    (∀ st st', ActiveSetInv st →
       Relation.ReflTransGen (Step keccak) st st' → ActiveSetInv st') ∧
    (∀ env st st' args sender amount id,
       internal_create_htlc keccak env st args sender amount = .ok (st', id) →
       inActiveSet st' sender id) ∧
    (∀ env st st' htlc_id secret tr, ActiveSetInv st →
       withdraw keccak env st htlc_id secret = .ok (st', tr) →
       ∀ sndr, ¬ inActiveSet st' sndr htlc_id) ∧
    (∀ env st st' htlc_id tr, ActiveSetInv st →
       refund env st htlc_id = .ok (st', tr) →
       ∀ sndr, ¬ inActiveSet st' sndr htlc_id) := by
  refine ⟨activeInv_new, fun st st' => activeInv_steps, ?_, ?_, ?_⟩
  · intro env st st' args sender amount id hok
    obtain ⟨-, -, -, -, -, rfl⟩ := internal_create_ok hok
    unfold inActiveSet
    exact (mem_addActive _ _ _ _ _).mpr (Or.inl ⟨rfl, rfl⟩)
  · intro env st st' htlc_id secret tr hinv hok sndr hmem
    have hinv' : ActiveSetInv st' :=
      activeInv_step hinv (Step.stepWithdraw env htlc_id secret st st' tr hok)
    obtain ⟨htlc, -, -, -, -, -, hst', -⟩ := withdraw_ok hok
    obtain ⟨h, hgy, -, hstate⟩ := (hinv' sndr htlc_id).mp hmem
    rw [hst'] at hgy
    rw [mapGet_insert_self] at hgy
    injection hgy with he
    subst he
    exact absurd hstate (by simp)
  · intro env st st' htlc_id tr hinv hok sndr hmem
    have hinv' : ActiveSetInv st' :=
      activeInv_step hinv (@Step.stepRefund keccak env htlc_id st st' tr hok)
    obtain ⟨htlc, -, -, -, -, hst', -⟩ := refund_ok hok
    obtain ⟨h, hgy, -, hstate⟩ := (hinv' sndr htlc_id).mp hmem
    rw [hst'] at hgy
    rw [mapGet_insert_self] at hgy
    injection hgy with he
    subst he
    exact absurd hstate (by simp)

/-- C8 witness: the id returned by a concrete successful creation is in
`alice`'s active set. -/
theorem active_set_iff_C8_witness : inActiveSet stC "alice" idC :=
  (active_set_iff_C8 testHash).2.2.1 envTok (new "owner") stC argsTok "alice" 5 idC
    (by decide)

/-- C9 counterexample: the refund of `"g"` alone succeeds (its
preconditions all hold), but the batch `["g", "missing"]` fails as a
whole with the not-found panic of the second id — so the ids are not
processed independently, and the refund of `"g"` fails even though its
own preconditions hold, rather than "fully succeeding or fully failing
on its own preconditions". -/
theorem batch_refund_C9_counterexample :
    exOk (refund envAlice stR "g") = true ∧
    batch_refund envAlice stR ["g", "missing"] = .error .htlcNotFound := by decide

/-- Helper: a successful batch produces exactly one transfer per id. -/
theorem batch_refund_length (env : Env) :
    ∀ (ids : List String) (st st' : FusionPlusContract) (ts : List Transfer),
      batch_refund env st ids = .ok (st', ts) → ts.length = ids.length := by
  intro ids
  induction ids with
  | nil =>
    intro st st' ts h
    simp only [batch_refund, Except.ok.injEq, Prod.mk.injEq] at h
    rw [← h.2]
    rfl
  | cons id rest ih =>
    intro st st' ts h
    simp only [batch_refund] at h
    cases hr : refund env st id with
    | error e => simp only [hr] at h; exact Except.noConfusion h
    | ok p =>
      obtain ⟨st1, t⟩ := p
      simp only [hr] at h
      cases hb : batch_refund env st1 rest with
      | error e => simp only [hb] at h; exact Except.noConfusion h
      | ok q =>
        obtain ⟨st2, ts2⟩ := q
        simp only [hb, Except.ok.injEq, Prod.mk.injEq] at h
        rw [← h.2]
        simp [ih st1 st2 ts2 hb]

/-- C9 amended: `batch_refund` maps `refund` over the ids sequentially,
each id checked under the same preconditions as a single refund; when
all succeed it returns one transfer receipt per id, but the first
failing id panics and aborts the whole batch with that id's error (the
host reverts every earlier refund of the batch), so a failure on one id
also fails the others instead of leaving them processed independently. -/
theorem batch_refund_C9 (env : Env) (st : FusionPlusContract) :
    (∀ ids st' ts, batch_refund env st ids = .ok (st', ts) →
       ts.length = ids.length) ∧
    (∀ id ids e, refund env st id = .error e →
       batch_refund env st (id :: ids) = .error e) ∧
    (∀ id ids st1 t, refund env st id = .ok (st1, t) →
       batch_refund env st (id :: ids) =
         (batch_refund env st1 ids).map (fun r => (r.1, t :: r.2))) := by
  refine ⟨fun ids => batch_refund_length env ids st, ?_, ?_⟩
  · intro id ids e h
    simp only [batch_refund, h]
  · intro id ids st1 t h
    simp only [batch_refund, h]
    cases hb : batch_refund env st1 ids with
    | error e => simp [hb, Except.map]
    | ok q => obtain ⟨st2, ts2⟩ := q; simp [hb, Except.map]

/-- C9 witness: a batch whose head fails propagates exactly that error,
and a batch of one refundable id returns one receipt. -/
theorem batch_refund_C9_witness :
    batch_refund envAlice stR ["missing", "g"] = .error .htlcNotFound ∧
    (∃ st' ts, batch_refund envAlice stR ["g"] = .ok (st', ts) ∧ ts.length = 1) := by
  constructor
  · exact (batch_refund_C9 envAlice stR).2.1 "missing" ["g"] .htlcNotFound (by decide)
  · refine ⟨_, _, rfl, ?_⟩
    exact (batch_refund_C9 envAlice stR).1 ["g"] _ _ rfl

/-- C10: hashlock prefix stripping is repeated, not single: prepending
`"0x"` never changes the verdict of `validate_hashlock` or of
`validate_secret`, the doubly prefixed `"0x0x" ++ hashAB` is accepted as
a valid hashlock, and `validate_hashlock` accepts exactly the strings
whose character list, after removing every leading `"0x"` occurrence, is
64 ASCII hex digits. -/
theorem trim_repeated_C10 :
    (∀ s : String, validate_hashlock ("0x" ++ s) = validate_hashlock s) ∧
    (∀ (keccak : String → List Nat) (secret h : String),
       validate_secret keccak secret ("0x" ++ h) = validate_secret keccak secret h) ∧
    validate_hashlock ("0x0x" ++ hashAB) = true ∧
    (∀ s : String, validate_hashlock s = true ↔
       ((trim0x s.data).length = 64 ∧
        ∀ c ∈ trim0x s.data, isAsciiHexdigit c = true)) := by
  have hdata : ∀ s : String, ("0x" ++ s).data = '0' :: 'x' :: s.data := by
    intro s
    rw [String.data_append]
    rfl
  have htrim : ∀ l : List Char, trim0x ('0' :: 'x' :: l) = trim0x l := fun l => rfl
  refine ⟨?_, ?_, by decide, ?_⟩
  · intro s
    unfold validate_hashlock
    rw [hdata, htrim]
  · intro keccak secret h
    unfold validate_secret trimHex0x
    rw [hdata, htrim]
  · intro s
    unfold validate_hashlock
    simp [List.all_eq_true]

end FusionPlusHTLC
